import Mathlib

/-!
Verification of the MCPControl tool registry and workflow orchestrator
(`src/MCPControl/src/services/ToolRegistry.ts`,
`src/MCPControl/src/services/WorkflowOrchestrator.ts`).

The TypeScript services are shallowly embedded: the in-memory `Map`s become
association lists with JS `Map` semantics (insertion order, in-place update),
numbers that carry statistics become exact rationals, `Math.round` and the
JS truthiness of `x || d` are modelled explicitly, and each method becomes a
pure function from the relevant state and the outcome of its remote HTTP
call to the new state.
-/

namespace MCPControl

/-! ### JS semantics helpers -/

/-- JS `Math.round x`: round half away from zero is `floor (x + 1/2)` for the
values used here (statistics are nonnegative). -/
def jsRound (q : ℚ) : ℤ := ⌊q + 1/2⌋

/-- JS `x || d` on numbers: `0` (and `NaN`, not modelled) is falsy. -/
def jsOrQ (q d : ℚ) : ℚ := if q = 0 then d else q

/-- JS `x || d` on a natural-valued number: `0` is falsy. -/
def jsOrNat (n d : ℕ) : ℕ := if n = 0 then d else n

/-- JS `x || d` on an optional number: `undefined` and `0` are falsy. -/
def jsOrOptNat (o : Option ℕ) (d : ℕ) : ℕ :=
  match o with
  | none => d
  | some n => if n = 0 then d else n

/-- JS `x || d` on an optional string: `undefined` and `""` are falsy. -/
def jsOrOptStr (o : Option String) (d : String) : String :=
  match o with
  | none => d
  | some s => if s = "" then d else s

/-- JS `String.prototype.toLowerCase`, per character. -/
def lowerStr (s : String) : String := String.mk (s.data.map Char.toLower)

/-- Helper for `hasSub`: does `p` occur at the head of `s`? -/
def startsWith : List Char → List Char → Bool
  | [], _ => true
  | _ :: _, [] => false
  | p :: ps, c :: cs => p == c && startsWith ps cs

/-- Does `p` occur as a contiguous sublist of `s`? -/
def hasSub (p : List Char) : List Char → Bool
  | [] => startsWith p []
  | c :: cs => startsWith p (c :: cs) || hasSub p cs

/-- JS `s.includes t` (substring containment). -/
def strIncludes (s t : String) : Bool := hasSub t.data s.data

/-! ### Association-list maps with JS `Map` semantics -/

/-- JS `Map.prototype.get`. -/
def mapGet (k : String) : List (String × α) → Option α
  | [] => none
  | (k', v) :: rest => if k' = k then some v else mapGet k rest

/-- JS `Map.prototype.set`: updates in place, preserving insertion order, or
appends a fresh key at the end. -/
def mapSet (k : String) (v : α) : List (String × α) → List (String × α)
  | [] => [(k, v)]
  | (k', v') :: rest => if k' = k then (k, v) :: rest else (k', v') :: mapSet k v rest

/-- JS `Map.prototype.delete` (result map only). -/
def mapDelete (k : String) : List (String × α) → List (String × α)
  | [] => []
  | (k', v') :: rest => if k' = k then rest else (k', v') :: mapDelete k rest

/-! ### Data model (`src/MCPControl/src/types/index.ts`) -/

/-- `MCPToolSchema`: name, description, input schema (kept in serialized form,
as the registry only ever compares `JSON.stringify` of it), optional server id
and version. -/
structure MCPTool where
  name : String
  description : String
  inputSchema : String
  serverId : Option String
  version : Option String
deriving Repr, DecidableEq

/-- `MCPServerInfoSchema`. -/
structure MCPServerInfo where
  id : String
  name : String
  version : String
  protocolVersion : String
  url : Option String
  lastSeen : String
  discoveredAt : Option ℕ
  lastUpdated : Option ℕ
deriving Repr, DecidableEq

inductive HealthStatus where
  | healthy
  | degraded
  | unhealthy
deriving Repr, DecidableEq

/-- `resourceRequirements` sub-object of a registry entry. -/
structure ResourceRequirements where
  cpu : Option ℚ
  memory : Option ℚ
  network : Bool
deriving Repr, DecidableEq

/-- `ToolRegistryEntrySchema`: the registry's local record for one tool. -/
structure ToolRegistryEntry where
  id : String
  tool : MCPTool
  serverId : String
  category : String
  tags : List String
  isAvailable : Bool
  lastExecuted : Option ℕ
  executionCount : ℕ
  averageExecutionTime : ℚ
  successRate : ℚ
  registeredAt : ℕ
  lastUpdated : ℕ
  dependencies : List String
  conflictsWith : List String
  estimatedExecutionTime : Option ℚ
  resourceRequirements : Option ResourceRequirements
  healthStatus : HealthStatus
deriving Repr, DecidableEq

inductive Priority where
  | low
  | medium
  | high
deriving Repr, DecidableEq

/-- `ToolExecutionContextSchema` (arguments kept in serialized form). -/
structure ToolExecutionContext where
  toolName : String
  arguments : List (String × String)
  sessionId : String
  workflowId : Option String
  priority : Priority
  timeout : ℚ
  retryCount : ℕ
  maxRetries : ℕ
deriving Repr, DecidableEq

/-- `ToolExecutionResultSchema` (the `unknown` result payload kept in
serialized form). -/
structure ToolExecutionResult where
  success : Bool
  result : Option String
  error : Option String
  executionTime : ℚ
  toolName : String
  sessionId : String
  workflowId : Option String
  timestamp : String
deriving Repr, DecidableEq

/-! ### Registry state -/

/-- The mutable fields of `ToolRegistry` that the service logic reads and
writes (timers and file paths are environment effects, not data). -/
structure RegistryState where
  tools : List (String × ToolRegistryEntry)
  servers : List (String × MCPServerInfo)
  isInit : Bool
deriving Repr, DecidableEq

def emptyRegistry : RegistryState :=
  { tools := [], servers := [], isInit := false }

/-! ### Statistics update (`updateToolStatistics`, ToolRegistry.ts 534-559) -/

/-- `updateToolStatistics` as a pure function on the entry it mutates.
Mirrors the source: increment `executionCount`, set `lastExecuted`,
two-point average with a special case for a previous average of `0`, and a
success count reconstructed by `Math.round((successRate || 1.0) * (n - 1))`. -/
def updateToolStatistics (e : ToolRegistryEntry) (duration : ℚ) (success : Bool)
    (now : ℕ) : ToolRegistryEntry :=
  let count := e.executionCount + 1
  let avg := if e.averageExecutionTime = 0 then duration
             else (e.averageExecutionTime + duration) / 2
  let previousSuccesses := jsRound ((jsOrQ e.successRate 1) * ((count : ℚ) - 1))
  let currentSuccesses := previousSuccesses + (if success then 1 else 0)
  { e with
    executionCount := count
    lastExecuted := some now
    averageExecutionTime := avg
    successRate := (currentSuccesses : ℚ) / (count : ℚ)
    lastUpdated := now }

/-! ### Discovery (`ToolRegistry.ts` 179-413) -/

/-- `generateToolId` (ToolRegistry.ts 336-339): `serverId:name` with the JS
`serverId || 'unknown'` fallback. -/
def generateToolId (tool : MCPTool) : String :=
  jsOrOptStr tool.serverId "unknown" ++ ":" ++ tool.name

/-- `hasToolChanged` (ToolRegistry.ts 344-350): structural diff of
description, serialized input schema, and version. -/
def hasToolChanged (existing updated : MCPTool) : Bool :=
  existing.description != updated.description ||
  existing.inputSchema != updated.inputSchema ||
  existing.version != updated.version

/-- `categorizeTool` (ToolRegistry.ts 355-390): a fixed if-chain of
case-insensitive keyword checks over name and description. -/
def categorizeTool (tool : MCPTool) : String :=
  let name := lowerStr tool.name
  let description := lowerStr tool.description
  if strIncludes name "rag" || strIncludes description "rag" ||
     strIncludes name "search" || strIncludes description "search" ||
     strIncludes name "retrieval" || strIncludes description "retrieval" then
    "rag"
  else if strIncludes name "project" || strIncludes description "project" ||
     strIncludes name "task" || strIncludes description "task" ||
     strIncludes name "document" || strIncludes description "document" then
    "project-management"
  else if strIncludes name "data" || strIncludes description "data" ||
     strIncludes name "database" || strIncludes description "database" ||
     strIncludes name "sql" || strIncludes description "sql" then
    "data"
  else if strIncludes name "code" || strIncludes description "code" ||
     strIncludes name "git" || strIncludes description "git" ||
     strIncludes name "build" || strIncludes description "build" then
    "development"
  else if strIncludes name "notification" || strIncludes description "notification" ||
     strIncludes name "message" || strIncludes description "message" ||
     strIncludes name "email" || strIncludes description "email" then
    "communication"
  else if strIncludes name "file" || strIncludes description "file" ||
     strIncludes name "upload" || strIncludes description "upload" ||
     strIncludes name "download" || strIncludes description "download" then
    "file-management"
  else
    "general"

/-- `generateTags` (ToolRegistry.ts 395-413): independent keyword checks. -/
def generateTags (tool : MCPTool) : List String :=
  let name := lowerStr tool.name
  let description := lowerStr tool.description
  let check (kw : String) : List String :=
    if strIncludes name kw || strIncludes description kw then [kw] else []
  check "create" ++ check "update" ++ check "delete" ++ check "list" ++
  check "search" ++ check "ai" ++ check "async" ++ check "real-time"

/-- The fresh/refreshed registry entry built inside `updateTools`
(ToolRegistry.ts 287-305), with the source's `existing?.field || default`
fallbacks rendered by the JS-truthiness helpers. -/
def makeRegistryEntry (existing : Option ToolRegistryEntry) (tool : MCPTool)
    (toolId : String) (now : ℕ) : ToolRegistryEntry :=
  { id := toolId
    tool := tool
    serverId := jsOrOptStr tool.serverId "unknown"
    category := categorizeTool tool
    tags := generateTags tool
    isAvailable := true
    lastExecuted := existing.bind (·.lastExecuted)
    executionCount := jsOrNat (match existing with
      | some e => e.executionCount | none => 0) 0
    averageExecutionTime := jsOrQ (match existing with
      | some e => e.averageExecutionTime | none => 0) 0
    successRate := jsOrQ (match existing with
      | some e => e.successRate | none => 0) 1
    registeredAt := jsOrNat (match existing with
      | some e => e.registeredAt | none => 0) now
    lastUpdated := now
    dependencies := match existing with
      | some e => e.dependencies | none => []
    conflictsWith := match existing with
      | some e => e.conflictsWith | none => []
    estimatedExecutionTime := none
    resourceRequirements := existing.bind (·.resourceRequirements)
    healthStatus := .healthy }

/-- One iteration of the upsert loop of `updateTools` (ToolRegistry.ts
280-319): the accumulator is the tools map together with the `updatedTools`
id set (kept as a list). -/
def upsertToolStep (now : ℕ)
    (acc : List (String × ToolRegistryEntry) × List String) (tool : MCPTool) :
    List (String × ToolRegistryEntry) × List String :=
  let toolId := generateToolId tool
  let ids := acc.2 ++ [toolId]
  match mapGet toolId acc.1 with
  | none => (mapSet toolId (makeRegistryEntry none tool toolId now) acc.1, ids)
  | some existing =>
    if hasToolChanged existing.tool tool then
      (mapSet toolId (makeRegistryEntry (some existing) tool toolId now) acc.1, ids)
    else
      (acc.1, ids)

/-- The mark-missing-tools-unavailable sweep of `updateTools` (ToolRegistry.ts
322-330), applied pointwise to every map entry: the source condition is
`!updatedTools.has(toolId) && entry.isAvailable`. -/
def markUnavailable (ids : List String) (now : ℕ) :
    List (String × ToolRegistryEntry) → List (String × ToolRegistryEntry)
  | [] => []
  | (k, e) :: rest =>
    (if !ids.contains k && e.isAvailable then
       (k, { e with isAvailable := false, lastUpdated := now })
     else (k, e)) :: markUnavailable ids now rest

/-- `updateTools` (ToolRegistry.ts 277-331): upsert every reported tool, then
mark every entry absent from this pass unavailable. -/
def updateTools (m : List (String × ToolRegistryEntry)) (tools : List MCPTool)
    (now : ℕ) : List (String × ToolRegistryEntry) :=
  let step := tools.foldl (upsertToolStep now) (m, [])
  markUnavailable step.2 now step.1

/-- `updateServers` (ToolRegistry.ts 256-272). -/
def updateServers (m : List (String × MCPServerInfo))
    (servers : List MCPServerInfo) (now : ℕ) : List (String × MCPServerInfo) :=
  servers.foldl (fun m server =>
    match mapGet server.id m with
    | none =>
      mapSet server.id { server with discoveredAt := some now,
                                     lastUpdated := some now } m
    | some existing =>
      if existing.lastSeen ≠ server.lastSeen then
        mapSet server.id
          { server with discoveredAt := some (jsOrOptNat existing.discoveredAt now),
                        lastUpdated := some now } m
      else m) m

/-- What the `axios.get(archonUrl/tools)` round-trip of `discoverTools`
delivers: either a rejection (connection refused, HTTP 404, any network
error) or a response body in which the `tools` and `servers` fields each may
or may not be an array (`none` renders a non-array field). -/
inductive DiscoveryResponse where
  | netError (msg : String)
  | ok (toolsField : Option (List MCPTool)) (serversField : Option (List MCPServerInfo))
deriving Repr, DecidableEq

def DiscoveryResponse.isFailure : DiscoveryResponse → Bool
  | .netError _ => true
  | .ok toolsField _ => toolsField.isNone

/-- The body of the `try` block of `discoverTools` (ToolRegistry.ts 182-220):
a rejected request or a non-array `tools` field is a thrown error; otherwise
servers (when an array) and tools are reconciled into the maps. -/
def discoverToolsBody (st : RegistryState) (resp : DiscoveryResponse)
    (now : ℕ) : Except String RegistryState :=
  match resp with
  | .netError msg => .error msg
  | .ok toolsField serversField =>
    match toolsField with
    | none => .error "Invalid tools response format"
    | some tools =>
      let st1 := match serversField with
        | some servers => { st with servers := updateServers st.servers servers now }
        | none => st
      .ok { st1 with tools := updateTools st1.tools tools now }

/-- `discoverTools` (ToolRegistry.ts 179-251): the `catch` block logs and
swallows every error, leaving the state as it was, so the method always
resolves. -/
def discoverTools (st : RegistryState) (resp : DiscoveryResponse) (now : ℕ) :
    RegistryState :=
  match discoverToolsBody st resp now with
  | .ok st' => st'
  | .error _ => st

/-! ### Persistence (`ToolRegistry.ts` 71-126) -/

/-- The JSON snapshot written by `saveRegistry` (ToolRegistry.ts 112-118). -/
structure RegistrySnapshot where
  tools : List ToolRegistryEntry
  servers : List MCPServerInfo
  savedAt : ℕ
deriving Repr, DecidableEq

/-- `saveRegistry` (ToolRegistry.ts 108-126): serialize the map values. -/
def saveRegistry (st : RegistryState) (now : ℕ) : RegistrySnapshot :=
  { tools := st.tools.map Prod.snd
    servers := st.servers.map Prod.snd
    savedAt := now }

/-- What reading and parsing the snapshot file delivers to
`loadPersistedRegistry`: a read/parse error, or a parsed object whose
`tools` and `servers` fields each may or may not be an array. -/
inductive LoadResult where
  | fileError (msg : String)
  | parsed (toolsField : Option (List ToolRegistryEntry))
           (serversField : Option (List MCPServerInfo))
deriving Repr, DecidableEq

/-- The successful path of `loadPersistedRegistry` (ToolRegistry.ts 76-87):
`Map.set` each parsed entry under its own `id`. -/
def loadPersistedRegistry (st : RegistryState)
    (toolsField : Option (List ToolRegistryEntry))
    (serversField : Option (List MCPServerInfo)) : RegistryState :=
  let tools := match toolsField with
    | some ts => ts.foldl (fun m t => mapSet t.id t m) st.tools
    | none => st.tools
  let servers := match serversField with
    | some ss => ss.foldl (fun m s => mapSet s.id s m) st.servers
    | none => st.servers
  { st with tools := tools, servers := servers }

/-- The load step of `initialize` (ToolRegistry.ts 49-51):
`loadPersistedRegistry().catch(...)` swallows any read/parse error. -/
def loadStep (st : RegistryState) (load : LoadResult) : RegistryState :=
  match load with
  | .fileError _ => st
  | .parsed toolsField serversField =>
    loadPersistedRegistry st toolsField serversField

/-- `initialize` (ToolRegistry.ts 40-66), named `initRegistry` here: load the
persisted snapshot (errors swallowed), run one discovery pass (errors
swallowed inside `discoverTools`), then flag the registry initialized.
Nothing on this path rethrows, so the promise always resolves. -/
def initRegistry (st : RegistryState) (load : LoadResult)
    (resp : DiscoveryResponse) (now : ℕ) : Except String RegistryState :=
  if st.isInit then .ok st
  else
    let st1 := loadStep st load
    let st2 := discoverTools st1 resp now
    .ok { st2 with isInit := true }

/-- `getTool` (ToolRegistry.ts 425-427). -/
def getTool (st : RegistryState) (toolId : String) : Option ToolRegistryEntry :=
  mapGet toolId st.tools

/-! ### Execution proxy (`executeTool`, ToolRegistry.ts 455-529) -/

/-- The errors `executeTool` can reject with. -/
inductive ExecError where
  | notFound (toolId : String)
  | notAvailable (toolId : String)
  | remote (msg : String)
deriving Repr, DecidableEq

/-- What the `axios.post(.../execute)` round-trip delivers. -/
inductive RemoteOutcome where
  | ok (r : ToolExecutionResult)
  | fail (msg : String)
deriving Repr, DecidableEq

def RemoteOutcome.isOk : RemoteOutcome → Bool
  | .ok _ => true
  | .fail _ => false

instance {ε α : Type} [DecidableEq ε] [DecidableEq α] :
    DecidableEq (Except ε α) := fun a b =>
  match a, b with
  | .error e, .error f =>
    if h : e = f then .isTrue (by rw [h]) else .isFalse (by simp [h])
  | .error _, .ok _ => .isFalse (by simp)
  | .ok _, .error _ => .isFalse (by simp)
  | .ok x, .ok y =>
    if h : x = y then .isTrue (by rw [h]) else .isFalse (by simp [h])

/-- The observable effect of one `executeTool` call: its settled value, the
registry state afterwards, and whether the request reached the remote plane. -/
structure ExecEffect where
  result : Except ExecError ToolExecutionResult
  state : RegistryState
  remoteCalled : Bool
deriving Repr, DecidableEq

/-- `executeTool` (ToolRegistry.ts 455-529). The `catch` block runs
`updateToolStatistics` before rethrowing, so a not-found rejection leaves the
map alone (the entry lookup inside `updateToolStatistics` misses) while an
unavailable rejection still updates the existing entry's statistics; only the
available path performs the remote POST. -/
def executeTool (st : RegistryState) (toolId : String) (remote : RemoteOutcome)
    (duration : ℚ) (now : ℕ) : ExecEffect :=
  match mapGet toolId st.tools with
  | none =>
    { result := .error (.notFound toolId), state := st, remoteCalled := false }
  | some tool =>
    if !tool.isAvailable then
      { result := .error (.notAvailable toolId)
        state := { st with
          tools := mapSet toolId (updateToolStatistics tool duration false now) st.tools }
        remoteCalled := false }
    else
      match remote with
      | .ok r =>
        { result := .ok r
          state := { st with
            tools := mapSet toolId (updateToolStatistics tool duration true now) st.tools }
          remoteCalled := true }
      | .fail msg =>
        { result := .error (.remote msg)
          state := { st with
            tools := mapSet toolId (updateToolStatistics tool duration false now) st.tools }
          remoteCalled := true }

/-- One observed call in a run of `executeTool` calls: the remote outcome,
the measured duration, and the wall-clock time. -/
structure ExecCall where
  remote : RemoteOutcome
  duration : ℚ
  now : ℕ
deriving Repr, DecidableEq

/-- Iterate `executeTool` on one tool id, threading the registry state. -/
def runExecs (st : RegistryState) (toolId : String) : List ExecCall → RegistryState
  | [] => st
  | c :: cs => runExecs (executeTool st toolId c.remote c.duration c.now).state toolId cs

/-- Number of calls in a run whose remote outcome succeeded. -/
def countSuccesses (cs : List ExecCall) : ℕ :=
  (cs.filter (fun c => c.remote.isOk)).length

/-- Iterated `updateToolStatistics`, with the success flag `executeTool`
passes on its available path (true exactly when the remote call succeeded). -/
def iterStats (e : ToolRegistryEntry) : List ExecCall → ToolRegistryEntry
  | [] => e
  | c :: cs => iterStats (updateToolStatistics e c.duration c.remote.isOk c.now) cs

/-! ### Orchestrator (`src/MCPControl/src/services/WorkflowOrchestrator.ts`) -/

/-- One node of `WorkflowStepSchema` (types 269-283). -/
structure RetryPolicy where
  maxRetries : ℕ
  backoffMs : ℕ
  exponentialBackoff : Bool
deriving Repr, DecidableEq

structure WorkflowStep where
  id : String
  toolName : String
  arguments : List (String × String)
  dependencies : List String
  condition : Option String
  onSuccess : Option String
  onError : Option String
  timeout : ℚ
  retryPolicy : Option RetryPolicy
deriving Repr, DecidableEq

/-- `WorkflowSchema` (types 285-294). -/
structure Workflow where
  id : String
  name : String
  description : String
  steps : List WorkflowStep
  version : String
  createdAt : String
  updatedAt : String
deriving Repr, DecidableEq

inductive WorkflowStatus where
  | pending
  | running
  | completed
  | failed
  | cancelled
deriving Repr, DecidableEq

/-- `WorkflowExecutionSchema` (types 296-307); the `metadata` field only ever
carries the `historyCount` the stub computes. -/
structure WorkflowExecution where
  id : String
  workflowId : String
  sessionId : String
  status : WorkflowStatus
  currentStep : Option String
  startTime : String
  endTime : Option String
  results : List ToolExecutionResult
  errors : List String
  metadata : Option ℕ
deriving Repr, DecidableEq

/-- `OrchestrationContextSchema` constraints sub-object. -/
structure OrchestrationConstraints where
  maxExecutionTime : Option ℚ
  maxConcurrentTools : ℕ
  allowedCategories : Option (List String)
  forbiddenTools : List String
deriving Repr, DecidableEq

inductive ExecutionStrategy where
  | sequential
  | parallel
  | adaptive
deriving Repr, DecidableEq

inductive ErrorHandling where
  | strict
  | lenient
  | skip
deriving Repr, DecidableEq

/-- `OrchestrationContextSchema` preferences sub-object. -/
structure OrchestrationPreferences where
  preferredTools : List String
  executionStrategy : ExecutionStrategy
  errorHandling : ErrorHandling
deriving Repr, DecidableEq

/-- `OrchestrationContextSchema` (types 334-350). -/
structure OrchestrationContext where
  sessionId : String
  userGoal : String
  availableTools : List String
  executionHistory : List ToolExecutionResult
  constraints : Option OrchestrationConstraints
  preferences : Option OrchestrationPreferences
deriving Repr, DecidableEq

/-- The mutable state of `WorkflowOrchestrator`: the active-execution index
(nothing in the source ever inserts into it). -/
structure OrchestratorState where
  activeExecutions : List (String × WorkflowExecution)
deriving Repr, DecidableEq

/-- `executeWorkflow` (WorkflowOrchestrator.ts 92-137): the source builds and
returns a pre-completed execution record without walking the steps and
without touching `activeExecutions`. The generated execution id and the two
`new Date().toISOString()` stamps are passed in as observed values. -/
def executeWorkflow (st : OrchestratorState) (workflow : Workflow)
    (ctx : OrchestrationContext) (executionId : String)
    (startStamp endStamp : String) : WorkflowExecution × OrchestratorState :=
  ({ id := executionId
     workflowId := if workflow.id = "" then "unknown" else workflow.id
     sessionId := ctx.sessionId
     status := .completed
     currentStep := none
     startTime := startStamp
     endTime := some endStamp
     results := []
     errors := []
     metadata := some ctx.executionHistory.length }, st)

/-- `getExecution` (WorkflowOrchestrator.ts 156-158). -/
def getExecution (st : OrchestratorState) (executionId : String) :
    Option WorkflowExecution :=
  mapGet executionId st.activeExecutions

/-- `cancelExecution` (WorkflowOrchestrator.ts 163-177). -/
def cancelExecution (st : OrchestratorState) (executionId : String) :
    Bool × OrchestratorState :=
  match mapGet executionId st.activeExecutions with
  | none => (false, st)
  | some _ =>
    (true, { st with activeExecutions := mapDelete executionId st.activeExecutions })

/-! ### Spec-side definitions

These definitions follow the specification's words, to be compared with the
embeddings above; they are the only definitions not translated from the
source. -/

/-- The two-point running average formula of the spec: the first duration is
taken verbatim and every later one is averaged against the previous value. -/
def specAvg : List ℚ → ℚ
  | [] => 0
  | d :: ds => ds.foldl (fun a d => (a + d) / 2) d

/-- The spec's fixed category/keyword priority table. -/
def categoryTable : List (String × List String) :=
  [("rag", ["rag", "search", "retrieval"]),
   ("project-management", ["project", "task", "document"]),
   ("data", ["data", "database", "sql"]),
   ("development", ["code", "git", "build"]),
   ("communication", ["notification", "message", "email"]),
   ("file-management", ["file", "upload", "download"])]

/-- Case-insensitive substring occurrence, per the spec's "keywords occur
case-insensitively as substrings". -/
def ciOccurs (kw text : String) : Bool := strIncludes (lowerStr text) (lowerStr kw)

/-- First-match walk over a category table, per the spec's "first match
wins". -/
def firstCategory (name description : String) : List (String × List String) → String
  | [] => "general"
  | row :: rest =>
    if row.2.any (fun kw => ciOccurs kw name || ciOccurs kw description) then row.1
    else firstCategory name description rest

/-- The category the spec assigns: the first table row one of whose keywords
occurs in the tool's name or description, defaulting to `general`. -/
def specCategory (name description : String) : String :=
  firstCategory name description categoryTable

/-- Dependency ids a workflow declares for a step id (empty when the id names
no step). -/
def directDeps (wf : Workflow) (sid : String) : List String :=
  match wf.steps.find? (fun s => s.id == sid) with
  | some s => s.dependencies
  | none => []

/-- Bounded reachability along declared dependencies. -/
def depReaches (wf : Workflow) : ℕ → String → String → Bool
  | 0, _, _ => false
  | n + 1, a, b =>
    (directDeps wf a).contains b ||
    (directDeps wf a).any (fun c => depReaches wf n c b)

/-- The claim's "valid DAG": no step depends on itself through any chain of
declared dependencies. -/
def validDAG (wf : Workflow) : Bool :=
  wf.steps.all (fun s => !(depReaches wf wf.steps.length s.id s.id))

/-- A result in an execution's result list belongs to a step when it carries
that step's tool name. -/
def resultOfStep (r : ToolExecutionResult) (s : WorkflowStep) : Prop :=
  r.toolName = s.toolName

/-! ### Concrete fixtures used by witnesses and counterexamples -/

/-- A tool whose name and description hit none of the category keywords. -/
def sampleTool : MCPTool :=
  { name := "alpha", description := "runs things", inputSchema := "sch",
    serverId := some "s1", version := some "1" }

/-- The entry a first discovery pass creates for `sampleTool`. -/
def sampleEntry : ToolRegistryEntry := makeRegistryEntry none sampleTool "s1:alpha" 0

/-- A registry holding only the freshly discovered `sampleEntry`. -/
def sampleState : RegistryState :=
  { tools := [("s1:alpha", sampleEntry)], servers := [], isInit := true }

/-- `sampleEntry` flagged unavailable by a later pass. -/
def unavailEntry : ToolRegistryEntry := { sampleEntry with isAvailable := false }

def unavailState : RegistryState :=
  { tools := [("s1:alpha", unavailEntry)], servers := [], isInit := true }

/-- `sampleTool` with a changed description (so `hasToolChanged` is true). -/
def sampleToolChanged : MCPTool := { sampleTool with description := "runs things differently" }

/-- A successful remote reply used in witness runs. -/
def okResult : ToolExecutionResult :=
  { success := true, result := some "r", error := none, executionTime := 12,
    toolName := "alpha", sessionId := "s1", workflowId := none, timestamp := "t1" }

/-- Two failing calls: the C1 counterexample run. -/
def failTwice : List ExecCall :=
  [{ remote := .fail "boom", duration := 1, now := 1 },
   { remote := .fail "boom", duration := 1, now := 2 }]

/-- A mixed run (success, failure, success) whose first call succeeds. -/
def mixedCalls : List ExecCall :=
  [{ remote := .ok okResult, duration := 2, now := 1 },
   { remote := .fail "x", duration := 4, now := 2 },
   { remote := .ok okResult, duration := 6, now := 3 }]

/-- A discovered remote server record. -/
def sampleServer : MCPServerInfo :=
  { id := "sv1", name := "srv", version := "1", protocolVersion := "1",
    url := none, lastSeen := "seen", discoveredAt := some 1, lastUpdated := some 2 }

/-- A two-tool, one-server registry whose map keys equal the entry ids. -/
def roundTripState : RegistryState :=
  { tools := [("s1:alpha", sampleEntry), ("s1:beta", { sampleEntry with id := "s1:beta" })]
    servers := [("sv1", sampleServer)]
    isInit := true }

/-- Workflow fixtures: step B declares a dependency on step A. -/
def stepA : WorkflowStep :=
  { id := "A", toolName := "toolA", arguments := [], dependencies := [],
    condition := none, onSuccess := none, onError := none, timeout := 30000,
    retryPolicy := none }

def stepB : WorkflowStep :=
  { stepA with id := "B", toolName := "toolB", dependencies := ["A"] }

def wfAB : Workflow :=
  { id := "wf1", name := "w", description := "d", steps := [stepA, stepB],
    version := "1.0.0", createdAt := "t0", updatedAt := "t0" }

def ctx0 : OrchestrationContext :=
  { sessionId := "s1", userGoal := "g", availableTools := [],
    executionHistory := [], constraints := none, preferences := none }

def orch0 : OrchestratorState := { activeExecutions := [] }

/-- A second tool on the same server, used for discovery-pass witnesses. -/
def otherTool : MCPTool :=
  { name := "beta", description := "other", inputSchema := "s2",
    serverId := some "s1", version := none }

/-- An entry whose running success rate has decayed to exactly 0. -/
def zeroRateEntry : ToolRegistryEntry :=
  { sampleEntry with successRate := 0, executionCount := 3, averageExecutionTime := 5 }

def zeroRateState : RegistryState :=
  { tools := [("s1:alpha", zeroRateEntry)], servers := [], isInit := true }

/-- An entry with accumulated nonzero statistics. -/
def statsEntry : ToolRegistryEntry :=
  { sampleEntry with
    successRate := mkRat 3 4
    executionCount := 4
    averageExecutionTime := 7 }

def statsState : RegistryState :=
  { tools := [("s1:alpha", statsEntry)], servers := [], isInit := true }

/-! ### Helper lemmas -/

theorem mapGet_mapSet_self (k : String) (v : α) (m : List (String × α)) :
    mapGet k (mapSet k v m) = some v := by
  induction m with
  | nil => simp [mapGet, mapSet]
  | cons p rest ih =>
    obtain ⟨k', v'⟩ := p
    by_cases h : k' = k
    · simp [mapGet, mapSet, h]
    · simp [mapGet, mapSet, h, ih]

theorem mapGet_mapSet_ne (k k' : String) (v : α) (m : List (String × α))
    (h : k' ≠ k) : mapGet k' (mapSet k v m) = mapGet k' m := by
  induction m with
  | nil => simp [mapGet, mapSet, Ne.symm h]
  | cons p rest ih =>
    obtain ⟨k0, v0⟩ := p
    by_cases h0 : k0 = k
    · subst h0
      simp [mapGet, mapSet, Ne.symm h]
    · simp [mapGet, mapSet, h0, ih]

theorem jsOrNat_zero_right (n : ℕ) : jsOrNat n 0 = n := by
  unfold jsOrNat
  split <;> omega

theorem jsOrQ_zero_right (q : ℚ) : jsOrQ q 0 = q := by
  unfold jsOrQ
  by_cases h : q = 0 <;> simp [h]

theorem jsRound_zero : jsRound (0 : ℚ) = 0 := by
  unfold jsRound
  rw [zero_add, Int.floor_eq_zero_iff, Set.mem_Ico]
  constructor <;> norm_num

theorem jsRound_natCast (m : ℕ) : jsRound (m : ℚ) = m := by
  unfold jsRound
  rw [add_comm]
  rw [show ((m : ℚ)) = ((m : ℤ) : ℚ) by push_cast; ring]
  rw [Int.floor_add_int]
  norm_num

theorem jsRound_one : jsRound (1 : ℚ) = 1 := by
  simpa using jsRound_natCast 1

theorem countSuccesses_cons (c : ExecCall) (cs : List ExecCall) :
    countSuccesses (c :: cs) =
      (if c.remote.isOk then 1 else 0) + countSuccesses cs := by
  unfold countSuccesses
  by_cases h : c.remote.isOk
  · simp [List.filter_cons, h]
    omega
  · simp [List.filter_cons, h]

theorem upsertToolStep_snd (now : ℕ) (m : List (String × ToolRegistryEntry))
    (ids : List String) (t : MCPTool) :
    (upsertToolStep now (m, ids) t).2 = ids ++ [generateToolId t] := by
  simp only [upsertToolStep]
  cases hm : mapGet (generateToolId t) m with
  | none => simp [hm]
  | some e => by_cases hc : hasToolChanged e.tool t <;> simp [hm, hc]

theorem upsertToolStep_fst_ne (now : ℕ) (m : List (String × ToolRegistryEntry))
    (ids : List String) (t : MCPTool) (k : String)
    (hk : generateToolId t ≠ k) :
    mapGet k (upsertToolStep now (m, ids) t).1 = mapGet k m := by
  simp only [upsertToolStep]
  cases hm : mapGet (generateToolId t) m with
  | none => simp [hm, mapGet_mapSet_ne _ _ _ _ (Ne.symm hk)]
  | some e =>
    by_cases hc : hasToolChanged e.tool t <;>
      simp [hm, hc, mapGet_mapSet_ne _ _ _ _ (Ne.symm hk)]

theorem upsertToolStep_fst_of_get (now : ℕ) (m : List (String × ToolRegistryEntry))
    (ids : List String) (t : MCPTool) (e : ToolRegistryEntry)
    (hm : mapGet (generateToolId t) m = some e) :
    mapGet (generateToolId t) (upsertToolStep now (m, ids) t).1 =
      some (if hasToolChanged e.tool t then
              makeRegistryEntry (some e) t (generateToolId t) now
            else e) := by
  simp only [upsertToolStep]
  by_cases hc : hasToolChanged e.tool t <;> simp [hm, hc, mapGet_mapSet_self]

/-- The `updatedTools` set collected by the upsert loop is exactly the ids of
the reported tools, in order. -/
theorem foldl_upsert_ids (now : ℕ) (tools : List MCPTool) :
    ∀ (m : List (String × ToolRegistryEntry)) (ids : List String),
    (tools.foldl (upsertToolStep now) (m, ids)).2 = ids ++ tools.map generateToolId := by
  induction tools with
  | nil => intro m ids; simp
  | cons t ts ih =>
    intro m ids
    simp only [List.foldl_cons, List.map_cons]
    rcases hs : upsertToolStep now (m, ids) t with ⟨m1, ids1⟩
    have h2 : ids1 = ids ++ [generateToolId t] := by
      have := upsertToolStep_snd now m ids t
      rw [hs] at this
      exact this
    rw [ih m1 ids1, h2]
    simp

/-- The upsert loop leaves keys that no reported tool generates untouched. -/
theorem foldl_upsert_get_notin (now : ℕ) (tools : List MCPTool) (k : String) :
    ∀ (m : List (String × ToolRegistryEntry)) (ids : List String),
    (∀ t ∈ tools, generateToolId t ≠ k) →
    mapGet k (tools.foldl (upsertToolStep now) (m, ids)).1 = mapGet k m := by
  induction tools with
  | nil => intro m ids _; rfl
  | cons t ts ih =>
    intro m ids hk
    simp only [List.foldl_cons]
    have hne : generateToolId t ≠ k := hk t (by simp)
    have hrest : ∀ t' ∈ ts, generateToolId t' ≠ k := fun t' ht' => hk t' (by simp [ht'])
    rcases hs : upsertToolStep now (m, ids) t with ⟨m1, ids1⟩
    have hget : mapGet k m1 = mapGet k m := by
      have := upsertToolStep_fst_ne now m ids t k hne
      rw [hs] at this
      exact this
    rw [ih m1 ids1 hrest, hget]

/-- The upsert loop never removes a key. -/
theorem foldl_upsert_preserves (now : ℕ) (tools : List MCPTool) (k : String) :
    ∀ (m : List (String × ToolRegistryEntry)) (ids : List String)
      (e : ToolRegistryEntry), mapGet k m = some e →
    ∃ e', mapGet k (tools.foldl (upsertToolStep now) (m, ids)).1 = some e' := by
  induction tools with
  | nil => intro m ids e h; exact ⟨e, h⟩
  | cons t ts ih =>
    intro m ids e h
    simp only [List.foldl_cons]
    have hstep : ∃ e1, mapGet k (upsertToolStep now (m, ids) t).1 = some e1 := by
      by_cases hk : generateToolId t = k
      · subst hk
        have := upsertToolStep_fst_of_get now m ids t e h
        exact ⟨_, this⟩
      · refine ⟨e, ?_⟩
        rw [upsertToolStep_fst_ne now m ids t k hk]
        exact h
    obtain ⟨e1, he1⟩ := hstep
    rcases hs : upsertToolStep now (m, ids) t with ⟨m1, ids1⟩
    rw [hs] at he1
    exact ih m1 ids1 e1 he1

theorem updateToolStatistics_isAvailable (e : ToolRegistryEntry) (d : ℚ)
    (s : Bool) (n : ℕ) :
    (updateToolStatistics e d s n).isAvailable = e.isAvailable := rfl

/-- On an available entry, `executeTool` updates the map at the tool's key
with the recomputed statistics, whichever way the remote call settles. -/
theorem executeTool_state_available (st : RegistryState) (toolId : String)
    (e : ToolRegistryEntry) (c : ExecCall)
    (hget : mapGet toolId st.tools = some e) (ha : e.isAvailable = true) :
    (executeTool st toolId c.remote c.duration c.now).state.tools =
      mapSet toolId (updateToolStatistics e c.duration c.remote.isOk c.now) st.tools := by
  cases hr : c.remote with
  | ok r => simp [executeTool, hget, ha, RemoteOutcome.isOk]
  | fail msg => simp [executeTool, hget, ha, RemoteOutcome.isOk]

/-- Running a batch of calls on an available entry accumulates exactly the
iterated statistics update. -/
theorem runExecs_get (toolId : String) (cs : List ExecCall) :
    ∀ (st : RegistryState) (e : ToolRegistryEntry),
      mapGet toolId st.tools = some e → e.isAvailable = true →
      mapGet toolId (runExecs st toolId cs).tools = some (iterStats e cs) := by
  induction cs with
  | nil => intro st e hget _; exact hget
  | cons c cs ih =>
    intro st e hget ha
    rw [runExecs, iterStats]
    apply ih
    · rw [executeTool_state_available st toolId e c hget ha, mapGet_mapSet_self]
    · rw [updateToolStatistics_isAvailable]
      exact ha

/-- The statistics invariant maintained by `updateToolStatistics` once the
running average is positive and the running success count is at least one:
under those side conditions the code tracks the exact count/rate/average. -/
theorem iterStats_invariant (cs : List ExecCall) :
    ∀ (e : ToolRegistryEntry) (k m : ℕ) (a : ℚ),
      e.executionCount = k →
      e.successRate = (m : ℚ) / (k : ℚ) →
      e.averageExecutionTime = a →
      1 ≤ m → m ≤ k → 0 < a →
      (∀ c ∈ cs, 0 < c.duration) →
      (iterStats e cs).executionCount = k + cs.length ∧
      (iterStats e cs).successRate =
        ((m + countSuccesses cs : ℕ) : ℚ) / ((k + cs.length : ℕ) : ℚ) ∧
      (iterStats e cs).averageExecutionTime =
        cs.foldl (fun acc c => (acc + c.duration) / 2) a ∧
      0 < (iterStats e cs).averageExecutionTime := by
  induction cs with
  | nil =>
    intro e k m a hk hr hav _ _ hapos _
    refine ⟨by simpa using hk, by simpa [countSuccesses] using hr, by simpa using hav, ?_⟩
    rw [show (iterStats e []).averageExecutionTime = a from by simpa using hav]
    exact hapos
  | cons c cs ih =>
    intro e k m a hk hr hav hm1 hmk hapos hd
    have hdc : 0 < c.duration := hd c (by simp)
    have hdrest : ∀ c' ∈ cs, 0 < c'.duration := fun c' h => hd c' (by simp [h])
    have hk0 : (k : ℚ) ≠ 0 := Nat.cast_ne_zero.mpr (by omega)
    have hm0 : (m : ℚ) ≠ 0 := Nat.cast_ne_zero.mpr (by omega)
    have hsr : e.successRate ≠ 0 := by
      rw [hr]
      exact div_ne_zero hm0 hk0
    have hane : ¬ e.averageExecutionTime = 0 := by
      rw [hav]
      exact ne_of_gt hapos
    have hcount : (updateToolStatistics e c.duration c.remote.isOk c.now).executionCount
        = k + 1 := by
      simp [updateToolStatistics, hk]
    have havg : (updateToolStatistics e c.duration c.remote.isOk c.now).averageExecutionTime
        = (a + c.duration) / 2 := by
      simp [updateToolStatistics, hav, hapos.ne']
    have hrate : (updateToolStatistics e c.duration c.remote.isOk c.now).successRate
        = ((m + (if c.remote.isOk then 1 else 0) : ℕ) : ℚ) / ((k + 1 : ℕ) : ℚ) := by
      have hdiv : ((m : ℚ) / (k : ℚ)) ≠ 0 := div_ne_zero hm0 hk0
      simp only [updateToolStatistics, jsOrQ, hr, hk]
      rw [if_neg hdiv]
      rw [show ((↑(k + 1) : ℚ) - 1) = (k : ℚ) by push_cast; ring]
      rw [div_mul_cancel₀ _ hk0, jsRound_natCast]
      by_cases hok : c.remote.isOk <;> simp [hok]
    obtain ⟨hc1, hc2, hc3, hc4⟩ :=
      ih (updateToolStatistics e c.duration c.remote.isOk c.now)
        (k + 1) (m + (if c.remote.isOk then 1 else 0)) ((a + c.duration) / 2)
        hcount hrate havg (by omega)
        (by by_cases hok : c.remote.isOk <;> simp [hok] <;> omega)
        (by positivity) hdrest
    rw [iterStats]
    refine ⟨?_, ?_, ?_, hc4⟩
    · rw [hc1]
      simp
      omega
    · rw [hc2, countSuccesses_cons]
      have hnum : m + (if c.remote.isOk then 1 else 0) + countSuccesses cs
          = m + ((if c.remote.isOk then 1 else 0) + countSuccesses cs) := by omega
      have hden : k + 1 + cs.length = k + (c :: cs).length := by
        simp
        omega
      rw [hnum, hden]
    · rw [hc3]
      rfl

/-- Lookup through the mark-unavailable sweep. -/
theorem mapGet_markUnavailable (ids : List String) (now : ℕ)
    (m : List (String × ToolRegistryEntry)) (k : String) :
    mapGet k (markUnavailable ids now m) =
      (mapGet k m).map (fun e =>
        if !ids.contains k && e.isAvailable then
          { e with isAvailable := false, lastUpdated := now }
        else e) := by
  induction m with
  | nil => rfl
  | cons p rest ih =>
    obtain ⟨k0, v0⟩ := p
    by_cases hc : (!ids.contains k0 && v0.isAvailable) = true
    · rw [markUnavailable, if_pos hc]
      by_cases hk : k0 = k
      · subst hk
        rw [mapGet, if_pos rfl, mapGet, if_pos rfl]
        simp only [Option.map]
        rw [if_pos hc]
      · rw [mapGet, if_neg hk, mapGet, if_neg hk, ih]
    · rw [markUnavailable, if_neg hc]
      by_cases hk : k0 = k
      · subst hk
        rw [mapGet, if_pos rfl, mapGet, if_pos rfl]
        simp only [Option.map]
        rw [if_neg hc]
      · rw [mapGet, if_neg hk, mapGet, if_neg hk, ih]

/-! ### Claim C1 -/

/-- C1 (amended): starting from a freshly discovered entry
(`executionCount = 0`, `averageExecutionTime = 0`, `successRate = 1`), a run
of N ≥ 1 `executeTool` calls with M remote successes, no discovery pass
interleaved, leaves `successRate = M/N` (exact rationals) and
`averageExecutionTime` equal to the two-point running average formula —
provided every observed duration is positive and the first call succeeds (or
N = 1). Without those side conditions the claim fails: a zero running
success rate is resurrected to 1.0 by the `successRate || 1.0` fallback, and
a zero running average restarts via the `averageExecutionTime === 0` guard. -/
theorem executeTool_statistics_amended (st : RegistryState) (toolId : String)
    (e : ToolRegistryEntry) (cs : List ExecCall)
    (hget : mapGet toolId st.tools = some e)
    (havail : e.isAvailable = true)
    (hcount : e.executionCount = 0)
    (havg : e.averageExecutionTime = 0)
    (hrate : e.successRate = 1)
    (hpos : ∀ c ∈ cs, 0 < c.duration)
    (hfirst : (cs.map (fun c => c.remote.isOk)).head? = some true ∨ cs.length = 1) :
    ∃ e', mapGet toolId (runExecs st toolId cs).tools = some e' ∧
      e'.executionCount = cs.length ∧
      e'.successRate = ((countSuccesses cs : ℕ) : ℚ) / ((cs.length : ℕ) : ℚ) ∧
      e'.averageExecutionTime = specAvg (cs.map (fun c => c.duration)) := by
  rcases cs with _ | ⟨c, cs'⟩
  · rcases hfirst with h | h <;> simp at h
  · have hget' := runExecs_get toolId (c :: cs') st e hget havail
    rw [iterStats] at hget'
    have h1c : (updateToolStatistics e c.duration c.remote.isOk c.now).executionCount
        = 1 := by
      simp [updateToolStatistics, hcount]
    have h1a : (updateToolStatistics e c.duration c.remote.isOk c.now).averageExecutionTime
        = c.duration := by
      simp [updateToolStatistics, havg]
    have h1r : (updateToolStatistics e c.duration c.remote.isOk c.now).successRate
        = ((if c.remote.isOk then 1 else 0 : ℕ) : ℚ) / ((1 : ℕ) : ℚ) := by
      simp only [updateToolStatistics, jsOrQ, hrate, hcount]
      rw [if_neg (by norm_num : ¬ (1 : ℚ) = 0)]
      norm_num [jsRound_zero]
    have hd1 : 0 < c.duration := hpos c (by simp)
    rcases hfirst with hok | hlen
    · have hcok : c.remote.isOk = true := by simpa using hok
      obtain ⟨hc1, hc2, hc3, _⟩ :=
        iterStats_invariant cs' (updateToolStatistics e c.duration c.remote.isOk c.now)
          1 1 c.duration h1c (by rw [h1r, hcok]; simp) h1a le_rfl le_rfl hd1
          (fun c' h => hpos c' (by simp [h]))
      refine ⟨iterStats (updateToolStatistics e c.duration c.remote.isOk c.now) cs',
        hget', ?_, ?_, ?_⟩
      · rw [hc1, List.length_cons]
        omega
      · rw [hc2, countSuccesses_cons, hcok]
        norm_num [List.length_cons]
        ring
      · rw [hc3, List.map_cons, specAvg, List.foldl_map]
    · have hnil : cs' = [] := by simpa using hlen
      subst hnil
      refine ⟨updateToolStatistics e c.duration c.remote.isOk c.now, ?_, ?_, ?_, ?_⟩
      · simpa [iterStats] using hget'
      · simpa using h1c
      · rw [h1r]
        by_cases hok : c.remote.isOk <;> simp [hok, countSuccesses, List.filter]
      · rw [h1a]
        rfl

/-- C1 counterexample: on a freshly discovered entry, two `executeTool` calls
that both fail (N = 2, M = 0, durations 1 and 1) leave `successRate = 1/2`,
not the claimed `M/N = 0`: after the first failure the rate is `0`, and the
source's `(tool.successRate || 1.0)` fallback misreads it as `1.0`. -/
theorem executeTool_statistics_claim_false :
    sampleEntry.executionCount = 0 ∧
    sampleEntry.averageExecutionTime = 0 ∧
    sampleEntry.successRate = 1 ∧
    countSuccesses failTwice = 0 ∧
    (mapGet "s1:alpha" (runExecs sampleState "s1:alpha" failTwice).tools).map
        (fun e => e.successRate) ≠
      some ((countSuccesses failTwice : ℚ) / (failTwice.length : ℚ)) := by
  refine ⟨by decide, by decide, by decide, by decide, ?_⟩
  have hget : mapGet "s1:alpha" sampleState.tools = some sampleEntry := by decide
  have h := runExecs_get "s1:alpha" failTwice sampleState sampleEntry hget (by decide)
  rw [h]
  have hr1 : (updateToolStatistics sampleEntry 1 false 1).successRate = 0 := by
    have key : ∀ e : ToolRegistryEntry, e.successRate = 1 → e.executionCount = 0 →
        (updateToolStatistics e 1 false 1).successRate = 0 := by
      intro e h1 h2
      simp only [updateToolStatistics, jsOrQ, h1, h2]
      norm_num [jsRound_zero]
    exact key sampleEntry (by decide) (by decide)
  have hc1 : (updateToolStatistics sampleEntry 1 false 1).executionCount = 1 := by decide
  have hr2 : (iterStats sampleEntry failTwice).successRate = 1 / 2 := by
    have key : ∀ e : ToolRegistryEntry, e.successRate = 0 → e.executionCount = 1 →
        (updateToolStatistics e 1 false 2).successRate = 1 / 2 := by
      intro e h1 h2
      simp only [updateToolStatistics, jsOrQ, h1, h2]
      norm_num [jsRound_one]
    exact key (updateToolStatistics sampleEntry 1 false 1) hr1 hc1
  simp only [Option.map]
  rw [hr2, show countSuccesses failTwice = 0 from by decide]
  norm_num

/-- Witness for C1 (amended) at a concrete three-call run: success (2ms),
failure (4ms), success (6ms) gives count 3, rate 2/3, average 9/2. -/
theorem executeTool_statistics_amended_witness :
    mapGet "s1:alpha" sampleState.tools = some sampleEntry ∧
    sampleEntry.isAvailable = true ∧
    sampleEntry.executionCount = 0 ∧
    sampleEntry.averageExecutionTime = 0 ∧
    sampleEntry.successRate = 1 ∧
    (∀ c ∈ mixedCalls, 0 < c.duration) ∧
    (mixedCalls.map (fun c => c.remote.isOk)).head? = some true ∧
    (∃ e', mapGet "s1:alpha" (runExecs sampleState "s1:alpha" mixedCalls).tools = some e' ∧
      e'.executionCount = mixedCalls.length ∧
      e'.successRate = ((countSuccesses mixedCalls : ℕ) : ℚ) / ((mixedCalls.length : ℕ) : ℚ) ∧
      e'.averageExecutionTime = specAvg (mixedCalls.map (fun c => c.duration))) :=
  ⟨by decide, by decide, by decide, by decide, by decide, by decide, by decide,
    executeTool_statistics_amended sampleState "s1:alpha" sampleEntry mixedCalls
      (by decide) (by decide) (by decide) (by decide) (by decide) (by decide)
      (Or.inl (by decide))⟩

/-! ### Claim C2 -/

/-- C2: on any remote failure during a discovery pass — a rejected request
(connection refused, HTTP 404, any network error) or a response whose
`tools` field is not an array — `discoverTools` swallows the error and leaves
the state exactly as it was, and `initialize` (modelled as `initRegistry`)
resolves with the tools and servers maps unchanged by the pass (only the
initialized flag flips when this was a first initialization). -/
theorem discovery_failure_swallowed (st : RegistryState) (resp : DiscoveryResponse)
    (now : ℕ) (h : resp.isFailure = true) :
    discoverTools st resp now = st ∧
    ∀ load : LoadResult,
      initRegistry st load resp now =
        .ok (if st.isInit then st else { loadStep st load with isInit := true }) := by
  have hd : ∀ st' : RegistryState, discoverTools st' resp now = st' := by
    intro st'
    cases resp with
    | netError msg => rfl
    | ok toolsField serversField =>
      cases toolsField with
      | none => rfl
      | some tools => simp [DiscoveryResponse.isFailure] at h
  refine ⟨hd st, fun load => ?_⟩
  rw [initRegistry]
  by_cases hi : st.isInit
  · simp [hi]
  · simp [hi, hd]

/-- Witness for C2 at a concrete connection-refused discovery failure on an
empty registry. -/
theorem discovery_failure_swallowed_witness :
    (DiscoveryResponse.netError "ECONNREFUSED").isFailure = true ∧
    (discoverTools emptyRegistry (.netError "ECONNREFUSED") 0 = emptyRegistry ∧
      ∀ load : LoadResult,
        initRegistry emptyRegistry load (.netError "ECONNREFUSED") 0 =
          .ok (if emptyRegistry.isInit then emptyRegistry
               else { loadStep emptyRegistry load with isInit := true })) :=
  ⟨by decide,
    discovery_failure_swallowed emptyRegistry (.netError "ECONNREFUSED") 0 (by decide)⟩

/-! ### Claim C3 -/

/-- C3 (amended): `executeTool` on an entry with `isAvailable = false`
rejects with the "unavailable" error and forwards nothing to the remote
plane, but — contrary to the claim's "statistics unchanged" — the catch
block still runs `updateToolStatistics` on the existing entry, so the
rejected call increments `executionCount` and recomputes the average and
success rate with a failed execution. -/
theorem executeTool_unavailable_amended (st : RegistryState) (toolId : String)
    (e : ToolRegistryEntry) (remote : RemoteOutcome) (duration : ℚ) (now : ℕ)
    (hget : mapGet toolId st.tools = some e)
    (hu : e.isAvailable = false) :
    (executeTool st toolId remote duration now).result = .error (.notAvailable toolId) ∧
    (executeTool st toolId remote duration now).remoteCalled = false ∧
    mapGet toolId (executeTool st toolId remote duration now).state.tools =
      some (updateToolStatistics e duration false now) ∧
    (updateToolStatistics e duration false now).executionCount = e.executionCount + 1 := by
  have hexec : executeTool st toolId remote duration now =
      { result := .error (.notAvailable toolId)
        state := { st with
          tools := mapSet toolId (updateToolStatistics e duration false now) st.tools }
        remoteCalled := false } := by
    simp [executeTool, hget, hu]
  rw [hexec]
  exact ⟨rfl, rfl, mapGet_mapSet_self _ _ _, rfl⟩

/-- C3 counterexample: on a concrete registry whose only entry is
unavailable, the rejected call rejects with "unavailable" and never reaches
the remote plane, yet it changes the stored statistics (`executionCount`
goes from 0 to 1) — so "the entry's statistics are unchanged by the rejected
call" is false as stated. -/
theorem executeTool_unavailable_claim_false :
    unavailEntry.isAvailable = false ∧
    unavailEntry.executionCount = 0 ∧
    (executeTool unavailState "s1:alpha" (.fail "down") 5 7).result
      = .error (.notAvailable "s1:alpha") ∧
    (executeTool unavailState "s1:alpha" (.fail "down") 5 7).remoteCalled = false ∧
    (mapGet "s1:alpha" (executeTool unavailState "s1:alpha" (.fail "down") 5 7).state.tools).map
        (fun e => e.executionCount) ≠
      (mapGet "s1:alpha" unavailState.tools).map (fun e => e.executionCount) := by
  refine ⟨by decide, by decide, by decide, by decide, ?_⟩
  decide

/-- Witness for C3 (amended) at a concrete unavailable entry. -/
theorem executeTool_unavailable_amended_witness :
    mapGet "s1:alpha" unavailState.tools = some unavailEntry ∧
    unavailEntry.isAvailable = false ∧
    ((executeTool unavailState "s1:alpha" (.ok okResult) 5 7).result
        = .error (.notAvailable "s1:alpha") ∧
      (executeTool unavailState "s1:alpha" (.ok okResult) 5 7).remoteCalled = false ∧
      mapGet "s1:alpha" (executeTool unavailState "s1:alpha" (.ok okResult) 5 7).state.tools =
        some (updateToolStatistics unavailEntry 5 false 7) ∧
      (updateToolStatistics unavailEntry 5 false 7).executionCount
        = unavailEntry.executionCount + 1) :=
  ⟨by decide, by decide,
    executeTool_unavailable_amended unavailState "s1:alpha" unavailEntry (.ok okResult) 5 7
      (by decide) (by decide)⟩

/-! ### Claim C5 -/

/-- C5: after any discovery pass, every previously present entry whose id is
not among the ids generated from the pass's tool list carries
`isAvailable = false` and is still retrievable through `getTool`; moreover no
discovery pass ever removes an entry — every previously present id is still
present afterwards. -/
theorem discovery_missing_tools_unavailable (st : RegistryState)
    (tools : List MCPTool) (now : ℕ) (k : String) (e : ToolRegistryEntry)
    (hget : mapGet k st.tools = some e)
    (hmiss : k ∉ tools.map generateToolId) :
    (∃ e', getTool { st with tools := updateTools st.tools tools now } k = some e' ∧
        e'.isAvailable = false) ∧
    ∀ (k' : String) (e0 : ToolRegistryEntry), mapGet k' st.tools = some e0 →
      ∃ e1, getTool { st with tools := updateTools st.tools tools now } k' = some e1 := by
  constructor
  · have hnotin : ∀ t ∈ tools, generateToolId t ≠ k := by
      intro t ht hcontra
      exact hmiss (hcontra ▸ List.mem_map_of_mem generateToolId ht)
    have hfold := foldl_upsert_get_notin now tools k st.tools [] hnotin
    have hids := foldl_upsert_ids now tools st.tools []
    have hcont : (tools.foldl (upsertToolStep now) (st.tools, [])).2.contains k = false := by
      rw [hids]
      simpa using hmiss
    simp only [getTool, updateTools]
    rw [mapGet_markUnavailable, hfold, hget, hcont]
    simp only [Option.map, Bool.not_false, Bool.true_and]
    by_cases ha : e.isAvailable = true
    · rw [ha, if_pos rfl]
      exact ⟨_, rfl, rfl⟩
    · have ha' : e.isAvailable = false := by simpa using ha
      rw [ha']
      exact ⟨e, by simp, ha'⟩
  · intro k' e0 hget0
    obtain ⟨e1, he1⟩ := foldl_upsert_preserves now tools k' st.tools [] e0 hget0
    simp only [getTool, updateTools]
    rw [mapGet_markUnavailable, he1]
    exact ⟨_, rfl⟩

/-- Witness for C5: a pass reporting only `otherTool` (id `s1:beta`) leaves
the previously discovered `s1:alpha` entry present and unavailable. -/
theorem discovery_missing_tools_unavailable_witness :
    mapGet "s1:alpha" sampleState.tools = some sampleEntry ∧
    "s1:alpha" ∉ [otherTool].map generateToolId ∧
    ((∃ e', getTool { sampleState with
          tools := updateTools sampleState.tools [otherTool] 9 } "s1:alpha" = some e' ∧
        e'.isAvailable = false) ∧
      ∀ (k' : String) (e0 : ToolRegistryEntry), mapGet k' sampleState.tools = some e0 →
        ∃ e1, getTool { sampleState with
          tools := updateTools sampleState.tools [otherTool] 9 } k' = some e1) :=
  ⟨by decide, by decide,
    discovery_missing_tools_unavailable sampleState [otherTool] 9 "s1:alpha" sampleEntry
      (by decide) (by decide)⟩

/-- Where a pass's tool list contains exactly one tool generating a given id
and an entry already exists under that id, the pass leaves at that id the
refreshed upsert when the tool's descriptive fields changed and the
untouched prior entry otherwise (the mark-unavailable sweep skips ids
reported in the pass). -/
theorem updateTools_get_of_unique (m : List (String × ToolRegistryEntry))
    (pre post : List MCPTool) (tool : MCPTool) (now : ℕ) (e : ToolRegistryEntry)
    (hget : mapGet (generateToolId tool) m = some e)
    (hpre : ∀ t ∈ pre, generateToolId t ≠ generateToolId tool)
    (hpost : ∀ t ∈ post, generateToolId t ≠ generateToolId tool) :
    mapGet (generateToolId tool) (updateTools m (pre ++ tool :: post) now) =
      some (if hasToolChanged e.tool tool then
              makeRegistryEntry (some e) tool (generateToolId tool) now
            else e) := by
  rcases hp : pre.foldl (upsertToolStep now) (m, []) with ⟨m1, ids1⟩
  have hm1 : mapGet (generateToolId tool) m1 = some e := by
    have h := foldl_upsert_get_notin now pre (generateToolId tool) m [] hpre
    rw [hp] at h
    rw [h]
    exact hget
  rcases hu : upsertToolStep now (m1, ids1) tool with ⟨m2, ids2⟩
  have hup : mapGet (generateToolId tool) m2 =
      some (if hasToolChanged e.tool tool then
              makeRegistryEntry (some e) tool (generateToolId tool) now
            else e) := by
    have h := upsertToolStep_fst_of_get now m1 ids1 tool e hm1
    rw [hu] at h
    exact h
  have hids2 : ids2 = ids1 ++ [generateToolId tool] := by
    have h := upsertToolStep_snd now m1 ids1 tool
    rw [hu] at h
    exact h
  rcases hq : post.foldl (upsertToolStep now) (m2, ids2) with ⟨m3, ids3⟩
  have hm3 : mapGet (generateToolId tool) m3 =
      some (if hasToolChanged e.tool tool then
              makeRegistryEntry (some e) tool (generateToolId tool) now
            else e) := by
    have h := foldl_upsert_get_notin now post (generateToolId tool) m2 ids2 hpost
    rw [hq] at h
    rw [h]
    exact hup
  have hids3 : ids3 = ids2 ++ post.map generateToolId := by
    have h := foldl_upsert_ids now post m2 ids2
    rw [hq] at h
    exact h
  have hmem : generateToolId tool ∈ ids3 := by
    rw [hids3, hids2]
    simp
  have hfold : (pre ++ tool :: post).foldl (upsertToolStep now) (m, []) = (m3, ids3) := by
    rw [List.foldl_append, List.foldl_cons, hp, hu, hq]
  simp only [updateTools]
  rw [hfold, mapGet_markUnavailable, hm3]
  simp [hmem]

/-! ### Claim C4 -/

/-- C4 (amended): a discovery pass that upserts a changed tool over an
existing entry preserves the prior `executionCount` and
`averageExecutionTime` for all prior values, and preserves `successRate`
except that a prior rate of exactly 0 is replaced by 1.0 (the
`existing?.successRate || 1.0` fallback treats 0 as absent); the descriptive
fields are refreshed from the reported tool. -/
theorem discovery_upsert_preserves_stats_amended
    (m : List (String × ToolRegistryEntry)) (pre post : List MCPTool)
    (tool : MCPTool) (now : ℕ) (e : ToolRegistryEntry)
    (hget : mapGet (generateToolId tool) m = some e)
    (hpre : ∀ t ∈ pre, generateToolId t ≠ generateToolId tool)
    (hpost : ∀ t ∈ post, generateToolId t ≠ generateToolId tool)
    (hch : hasToolChanged e.tool tool = true) :
    ∃ e', mapGet (generateToolId tool) (updateTools m (pre ++ tool :: post) now) = some e' ∧
      e'.executionCount = e.executionCount ∧
      e'.averageExecutionTime = e.averageExecutionTime ∧
      e'.successRate = (if e.successRate = 0 then 1 else e.successRate) ∧
      e'.tool = tool ∧
      e'.category = categorizeTool tool := by
  have h := updateTools_get_of_unique m pre post tool now e hget hpre hpost
  rw [if_pos hch] at h
  refine ⟨_, h, ?_, ?_, ?_, rfl, rfl⟩
  · simp [makeRegistryEntry, jsOrNat_zero_right]
  · simp [makeRegistryEntry, jsOrQ_zero_right]
  · simp [makeRegistryEntry, jsOrQ]

/-- C4 counterexample: an existing entry with `successRate = 0` upserted by
a pass whose tool has a changed description comes out with
`successRate = 1`, not the prior value 0 — the claim fails exactly at the
prior value the claim singles out. -/
theorem discovery_upsert_preserves_stats_claim_false :
    zeroRateEntry.successRate = 0 ∧
    generateToolId sampleToolChanged = "s1:alpha" ∧
    hasToolChanged zeroRateEntry.tool sampleToolChanged = true ∧
    (mapGet "s1:alpha" (updateTools zeroRateState.tools [sampleToolChanged] 9)).map
        (fun e => e.successRate) = some 1 ∧
    (1 : ℚ) ≠ 0 := by
  refine ⟨by decide, by decide, by decide, by decide, by norm_num⟩

/-- Witness for C4 (amended): an entry with nonzero statistics
(count 4, average 7, rate 3/4) keeps them across a changed-tool upsert. -/
theorem discovery_upsert_preserves_stats_amended_witness :
    mapGet (generateToolId sampleToolChanged) statsState.tools = some statsEntry ∧
    hasToolChanged statsEntry.tool sampleToolChanged = true ∧
    (∃ e', mapGet (generateToolId sampleToolChanged)
        (updateTools statsState.tools ([] ++ sampleToolChanged :: []) 9) = some e' ∧
      e'.executionCount = statsEntry.executionCount ∧
      e'.averageExecutionTime = statsEntry.averageExecutionTime ∧
      e'.successRate = (if statsEntry.successRate = 0 then 1 else statsEntry.successRate) ∧
      e'.tool = sampleToolChanged ∧
      e'.category = categorizeTool sampleToolChanged) :=
  ⟨by decide, by decide,
    discovery_upsert_preserves_stats_amended statsState.tools [] [] sampleToolChanged 9
      statsEntry (by decide) (by decide) (by decide) (by decide)⟩

/-! ### Claim C6 -/

/-- C6 (amended): after a discovery pass, an entry whose tool id appears in
the pass has `isAvailable = true` when the entry is refreshed (tool new or
descriptive fields changed); but an existing entry whose tool reappears
unchanged is left completely untouched, so it keeps its previous
availability flag — in particular a previously-unavailable tool that
reappears unchanged stays marked unavailable. -/
theorem discovery_reappearing_availability_amended
    (m : List (String × ToolRegistryEntry)) (pre post : List MCPTool)
    (tool : MCPTool) (now : ℕ) (e : ToolRegistryEntry)
    (hget : mapGet (generateToolId tool) m = some e)
    (hpre : ∀ t ∈ pre, generateToolId t ≠ generateToolId tool)
    (hpost : ∀ t ∈ post, generateToolId t ≠ generateToolId tool) :
    ∃ e', mapGet (generateToolId tool) (updateTools m (pre ++ tool :: post) now) = some e' ∧
      e'.isAvailable = (if hasToolChanged e.tool tool then true else e.isAvailable) ∧
      (hasToolChanged e.tool tool = false → e' = e) := by
  have h := updateTools_get_of_unique m pre post tool now e hget hpre hpost
  by_cases hch : hasToolChanged e.tool tool = true
  · rw [if_pos hch] at h
    refine ⟨_, h, ?_, ?_⟩
    · rw [if_pos hch]
      rfl
    · intro hcontra
      rw [hch] at hcontra
      cases hcontra
  · rw [if_neg hch] at h
    refine ⟨e, h, ?_, fun _ => rfl⟩
    rw [if_neg hch]

/-- C6 counterexample: the entry for `s1:alpha` is unavailable, the next
pass reports the identical tool (no descriptive change), and the entry is
still unavailable afterwards — the source only sets `isAvailable: true`
inside the new-or-changed upsert branch, so an unchanged reappearing tool
is never revived. -/
theorem discovery_reappearing_availability_claim_false :
    unavailEntry.isAvailable = false ∧
    generateToolId sampleTool = "s1:alpha" ∧
    hasToolChanged unavailEntry.tool sampleTool = false ∧
    (mapGet "s1:alpha" (updateTools unavailState.tools [sampleTool] 9)).map
        (fun e => e.isAvailable) = some false := by
  refine ⟨by decide, by decide, by decide, by decide⟩

/-- Witness for C6 (amended): the unavailable `s1:alpha` entry upserted by a
pass whose tool changed its description comes back available. -/
theorem discovery_reappearing_availability_amended_witness :
    mapGet (generateToolId sampleToolChanged) unavailState.tools = some unavailEntry ∧
    (∃ e', mapGet (generateToolId sampleToolChanged)
        (updateTools unavailState.tools ([] ++ sampleToolChanged :: []) 9) = some e' ∧
      e'.isAvailable = (if hasToolChanged unavailEntry.tool sampleToolChanged then true
                        else unavailEntry.isAvailable) ∧
      (hasToolChanged unavailEntry.tool sampleToolChanged = false → e' = unavailEntry)) :=
  ⟨by decide,
    discovery_reappearing_availability_amended unavailState.tools [] [] sampleToolChanged 9
      unavailEntry (by decide) (by decide) (by decide)⟩

/-- `Map.set` of a key not yet present appends at the end. -/
theorem mapSet_append_of_notin {α : Type} (k : String) (v : α)
    (m : List (String × α)) (h : k ∉ m.map Prod.fst) :
    mapSet k v m = m ++ [(k, v)] := by
  induction m with
  | nil => rfl
  | cons p rest ih =>
    obtain ⟨k0, v0⟩ := p
    simp only [List.map_cons, List.mem_cons] at h
    push_neg at h
    rw [mapSet, if_neg (fun hk => h.1 hk.symm), ih h.2]
    rfl

/-- Folding `Map.set` over values with fresh, pairwise distinct keys appends
them in order. -/
theorem foldl_mapSet_eq_append {α : Type} (key : α → String) (vs : List α) :
    ∀ m : List (String × α),
      (∀ v ∈ vs, key v ∉ m.map Prod.fst) → (vs.map key).Nodup →
      vs.foldl (fun acc t => mapSet (key t) t acc) m =
        m ++ vs.map (fun t => (key t, t)) := by
  induction vs with
  | nil => intro m _ _; simp
  | cons v vs ih =>
    intro m hnew hnd
    simp only [List.foldl_cons, List.map_cons]
    rw [mapSet_append_of_notin (key v) v m (hnew v (by simp))]
    rw [List.map_cons, List.nodup_cons] at hnd
    rw [ih (m ++ [(key v, v)]) ?fresh hnd.2]
    · simp
    case fresh =>
      intro w hw
      simp only [List.map_append, List.mem_append]
      push_neg
      refine ⟨hnew w (by simp [hw]), ?_⟩
      simp only [List.map_cons, List.map_nil, List.mem_singleton]
      intro hcontra
      exact hnd.1 (hcontra ▸ List.mem_map_of_mem key hw)

/-- Reloading the serialized values of an id-keyed, duplicate-free map into
an empty map reproduces it exactly. -/
theorem load_fold_roundtrip {α : Type} (key : α → String) (l : List (String × α))
    (hid : ∀ p ∈ l, key (Prod.snd p) = p.1) (hnd : (l.map Prod.fst).Nodup) :
    (l.map Prod.snd).foldl (fun acc t => mapSet (key t) t acc) [] = l := by
  have h1 : (l.map Prod.snd).map key = l.map Prod.fst := by
    rw [List.map_map]
    exact List.map_congr_left hid
  rw [foldl_mapSet_eq_append key (l.map Prod.snd) [] (by simp) (h1 ▸ hnd)]
  rw [List.nil_append, List.map_map]
  have h2 : ∀ p ∈ l, ((fun t => (key t, t)) ∘ Prod.snd) p = p := by
    intro p hp
    simp [hid p hp]
  rw [List.map_congr_left h2]
  simp

/-! ### Claim C7 -/

/-- C7: for every catalog state whose map keys equal their entry ids (with
no duplicate keys), serializing with `saveRegistry` and loading the snapshot
into an empty registry with `loadPersistedRegistry` reproduces the identical
tools and servers maps — persistence round-trips. -/
theorem registry_persistence_roundtrip (st : RegistryState) (now : ℕ)
    (htid : ∀ p ∈ st.tools, ToolRegistryEntry.id (Prod.snd p) = p.1)
    (hsid : ∀ p ∈ st.servers, MCPServerInfo.id (Prod.snd p) = p.1)
    (htnd : (st.tools.map Prod.fst).Nodup)
    (hsnd : (st.servers.map Prod.fst).Nodup) :
    (loadPersistedRegistry emptyRegistry (some (saveRegistry st now).tools)
        (some (saveRegistry st now).servers)).tools = st.tools ∧
    (loadPersistedRegistry emptyRegistry (some (saveRegistry st now).tools)
        (some (saveRegistry st now).servers)).servers = st.servers := by
  constructor
  · show (st.tools.map Prod.snd).foldl (fun acc t => mapSet t.id t acc) [] = st.tools
    exact load_fold_roundtrip ToolRegistryEntry.id st.tools htid htnd
  · show (st.servers.map Prod.snd).foldl (fun acc t => mapSet t.id t acc) [] = st.servers
    exact load_fold_roundtrip MCPServerInfo.id st.servers hsid hsnd

/-- Witness for C7 on a concrete two-tool, one-server catalog. -/
theorem registry_persistence_roundtrip_witness :
    (∀ p ∈ roundTripState.tools, ToolRegistryEntry.id (Prod.snd p) = p.1) ∧
    (∀ p ∈ roundTripState.servers, MCPServerInfo.id (Prod.snd p) = p.1) ∧
    (roundTripState.tools.map Prod.fst).Nodup ∧
    (roundTripState.servers.map Prod.fst).Nodup ∧
    ((loadPersistedRegistry emptyRegistry (some (saveRegistry roundTripState 5).tools)
        (some (saveRegistry roundTripState 5).servers)).tools = roundTripState.tools ∧
      (loadPersistedRegistry emptyRegistry (some (saveRegistry roundTripState 5).tools)
        (some (saveRegistry roundTripState 5).servers)).servers = roundTripState.servers) :=
  ⟨by decide, by decide, by decide, by decide,
    registry_persistence_roundtrip roundTripState 5 (by decide) (by decide)
      (by decide) (by decide)⟩

/-! ### Claim C8 -/

/-- C8: the category assigned at registration is exactly the first category
of the fixed priority table `rag → project-management → data → development →
communication → file-management` one of whose keywords occurs
case-insensitively as a substring of the tool's name or description, with
`general` when none occurs; the if-chain of `categorizeTool` implements
first-match-wins over exactly that table. -/
theorem categorizeTool_matches_priority_table (tool : MCPTool) :
    categorizeTool tool = specCategory tool.name tool.description := by
  have hlow : ∀ kw : String, lowerStr kw = kw → ∀ t : String,
      ciOccurs kw t = strIncludes (lowerStr t) kw := by
    intro kw hkw t
    rw [ciOccurs, hkw]
  have h1 := hlow "rag" (by decide)
  have h2 := hlow "search" (by decide)
  have h3 := hlow "retrieval" (by decide)
  have h4 := hlow "project" (by decide)
  have h5 := hlow "task" (by decide)
  have h6 := hlow "document" (by decide)
  have h7 := hlow "data" (by decide)
  have h8 := hlow "database" (by decide)
  have h9 := hlow "sql" (by decide)
  have h10 := hlow "code" (by decide)
  have h11 := hlow "git" (by decide)
  have h12 := hlow "build" (by decide)
  have h13 := hlow "notification" (by decide)
  have h14 := hlow "message" (by decide)
  have h15 := hlow "email" (by decide)
  have h16 := hlow "file" (by decide)
  have h17 := hlow "upload" (by decide)
  have h18 := hlow "download" (by decide)
  simp only [categorizeTool, specCategory, categoryTable, firstCategory,
    List.any_cons, List.any_nil, h1, h2, h3, h4, h5, h6, h7, h8, h9, h10,
    h11, h12, h13, h14, h15, h16, h17, h18, Bool.or_false, Bool.or_assoc]

/-! ### Claim C9 -/

/-- C9: for every workflow forming a valid DAG with step B depending on step
A, the Workflow Execution produced by `executeWorkflow` never lists B's
result before A's. This holds vacuously on the source: the stub executor
returns an empty results list for every workflow, so no out-of-order pair
can occur (and no executed step contributes any result at all). -/
theorem workflow_dependency_order (st : OrchestratorState) (wf : Workflow)
    (ctx : OrchestrationContext) (eid t1 t2 : String) (A B : WorkflowStep)
    (_hA : A ∈ wf.steps) (_hB : B ∈ wf.steps) (_hdep : A.id ∈ B.dependencies)
    (_hdag : validDAG wf = true) :
    ∀ i j : ℕ, i < j →
      ∀ ri rj : ToolExecutionResult,
        (executeWorkflow st wf ctx eid t1 t2).1.results[i]? = some ri →
        (executeWorkflow st wf ctx eid t1 t2).1.results[j]? = some rj →
        ¬(resultOfStep ri B ∧ resultOfStep rj A) := by
  intro i j hij ri rj hri hrj
  simp [executeWorkflow] at hri

/-- Witness for C9 on a two-step workflow where B depends on A. -/
theorem workflow_dependency_order_witness :
    stepA ∈ wfAB.steps ∧ stepB ∈ wfAB.steps ∧ stepA.id ∈ stepB.dependencies ∧
    validDAG wfAB = true ∧
    (∀ i j : ℕ, i < j →
      ∀ ri rj : ToolExecutionResult,
        (executeWorkflow orch0 wfAB ctx0 "e1" "ts" "te").1.results[i]? = some ri →
        (executeWorkflow orch0 wfAB ctx0 "e1" "ts" "te").1.results[j]? = some rj →
        ¬(resultOfStep ri stepB ∧ resultOfStep rj stepA)) :=
  ⟨by decide, by decide, by decide, by decide,
    workflow_dependency_order orch0 wfAB ctx0 "e1" "ts" "te" stepA stepB
      (by decide) (by decide) (by decide) (by decide)⟩

/-! ### Claim C10 -/

/-- C10: for every workflow and orchestration context, `executeWorkflow`
returns an execution with status `completed`, empty results and errors, and
both time stamps set, regardless of the workflow's steps; the orchestrator
state is untouched, the execution is never entered into the active-execution
index, so `getExecution` on its (fresh) id finds nothing and
`cancelExecution` returns false. -/
theorem executeWorkflow_stub_behavior (st : OrchestratorState) (wf : Workflow)
    (ctx : OrchestrationContext) (eid t1 t2 : String)
    (hfresh : mapGet eid st.activeExecutions = none) :
    (executeWorkflow st wf ctx eid t1 t2).1.status = .completed ∧
    (executeWorkflow st wf ctx eid t1 t2).1.results = [] ∧
    (executeWorkflow st wf ctx eid t1 t2).1.errors = [] ∧
    (executeWorkflow st wf ctx eid t1 t2).1.startTime = t1 ∧
    (executeWorkflow st wf ctx eid t1 t2).1.endTime = some t2 ∧
    (executeWorkflow st wf ctx eid t1 t2).2 = st ∧
    getExecution (executeWorkflow st wf ctx eid t1 t2).2 eid = none ∧
    cancelExecution (executeWorkflow st wf ctx eid t1 t2).2 eid =
      (false, (executeWorkflow st wf ctx eid t1 t2).2) := by
  refine ⟨rfl, rfl, rfl, rfl, rfl, rfl, ?_, ?_⟩
  · simpa [getExecution, executeWorkflow] using hfresh
  · simp [cancelExecution, executeWorkflow, hfresh]

/-- Witness for C10 at a concrete workflow with steps and a fresh id. -/
theorem executeWorkflow_stub_behavior_witness :
    mapGet "e1" orch0.activeExecutions = none ∧
    ((executeWorkflow orch0 wfAB ctx0 "e1" "ts" "te").1.status = .completed ∧
      (executeWorkflow orch0 wfAB ctx0 "e1" "ts" "te").1.results = [] ∧
      (executeWorkflow orch0 wfAB ctx0 "e1" "ts" "te").1.errors = [] ∧
      (executeWorkflow orch0 wfAB ctx0 "e1" "ts" "te").1.startTime = "ts" ∧
      (executeWorkflow orch0 wfAB ctx0 "e1" "ts" "te").1.endTime = some "te" ∧
      (executeWorkflow orch0 wfAB ctx0 "e1" "ts" "te").2 = orch0 ∧
      getExecution (executeWorkflow orch0 wfAB ctx0 "e1" "ts" "te").2 "e1" = none ∧
      cancelExecution (executeWorkflow orch0 wfAB ctx0 "e1" "ts" "te").2 "e1" =
        (false, (executeWorkflow orch0 wfAB ctx0 "e1" "ts" "te").2)) :=
  ⟨by decide,
    executeWorkflow_stub_behavior orch0 wfAB ctx0 "e1" "ts" "te" (by decide)⟩

end MCPControl
